import Mathlib

/-!
Shallow embedding of the client-side playback and visibility core of the
foogle repository: the FullScreenRecipeCard component
(src/culinary-vision/components/FullScreenRecipeCard.tsx), the
FavoritesView and FeedView visibility estimators (src/unnamed/part_001,
src/unnamed/part_003) and the RecipeScroller (RecipeScroller.tsx).

Media times are rationals; DOM media elements are records of the fields
the component reads and writes; React effects become explicit functions
on a per-card state record, and the window-level stopAllRecipeAudio
broadcast becomes a function applied to every mounted card.
-/

namespace Foogle

/-- The fields of an HTML audio element that FullScreenRecipeCard reads
and writes: paused, currentTime, duration, volume, readyState. -/
structure AudioEl where
  paused : Bool
  currentTime : ℚ
  duration : ℚ
  volume : ℚ
  readyState : Nat
  deriving Repr, DecidableEq

/-- The fields of an HTML video element that the component touches. -/
structure VideoEl where
  paused : Bool
  currentTime : ℚ
  duration : ℚ
  src : String
  deriving Repr, DecidableEq

/-- Per-instance state of one mounted FullScreenRecipeCard: its props
(recipeIndex, isVisible, hasVoiceover), its React state
(isVoiceoverMuted, isVoiceoverPlaying), the prevVisibleRef ref, the
refs to its media elements (none when the element is not rendered), and
whether the once-only loadeddata/canplay listeners that an activation
installs when the audio is unbuffered (FullScreenRecipeCard.tsx lines
201-215) are currently armed on the audio element: the effect that adds
them returns no cleanup, so nothing ever removes them before they
fire. -/
structure Card where
  recipeIndex : Int
  hasVoiceover : Bool
  muted : Bool
  playing : Bool
  prevVisible : Bool
  pendingLoadPlay : Bool
  isVisible : Bool
  audio : Option AudioEl
  video : Option VideoEl
  deriving Repr, DecidableEq

/-- The detail payload of the stopAllRecipeAudio CustomEvent
(FullScreenRecipeCard.tsx lines 60-62). -/
structure StopEvent where
  exceptIndex : Int
  newVisibleIndex : Int
  deriving Repr, DecidableEq

/-- The stopAllRecipeAudio listener of one card
(FullScreenRecipeCard.tsx lines 71-85): when the announced index differs
from this card's recipeIndex, pause the audio, rewind to 0 and clear the
playing flag; otherwise do nothing. -/
def handleStopAudio (ev : StopEvent) (c : Card) : Card :=
  if ev.exceptIndex ≠ c.recipeIndex ∧ ev.newVisibleIndex ≠ c.recipeIndex then
    match c.audio with
    | some ae =>
        { c with audio := some { ae with paused := true, currentTime := 0 },
                 playing := false }
    | none => c
  else c

/-- The global audio manager effect (FullScreenRecipeCard.tsx lines
57-67): on a rising edge of isVisible, dispatch a stopAllRecipeAudio
event carrying this card's recipeIndex. -/
def broadcastEffect (c : Card) : Option StopEvent :=
  if c.isVisible && !c.prevVisible then
    some { exceptIndex := c.recipeIndex, newVisibleIndex := c.recipeIndex }
  else none

/-- Result of running an effect that may call audio.play(): the new card
state, the number of play() calls issued, and the number of play
rejections caught and logged. -/
structure PlayOutcome where
  card : Card
  playCalls : Nat
  rejectionsLogged : Nat
  deriving Repr, DecidableEq

/-- attemptPlay (FullScreenRecipeCard.tsx lines 187-195): set
currentTime to 0, issue play(); on success the then-branch sets the
playing flag, on rejection the catch logs and changes nothing else. -/
def attemptPlay (playOk : Bool) (c : Card) : PlayOutcome :=
  match c.audio with
  | none => ⟨c, 0, 0⟩
  | some ae =>
    if playOk then
      ⟨{ c with audio := some { ae with currentTime := 0, paused := false },
                playing := true }, 1, 0⟩
    else
      ⟨{ c with audio := some { ae with currentTime := 0 } }, 1, 1⟩

/-- The play/pause voiceover effect (FullScreenRecipeCard.tsx lines
171-239).  Guard: no audio element or no voiceover returns before even
updating prevVisibleRef.  Branches, in the source's else-if order:
just-became-visible and unmuted rewinds to 0 and attempts play when
readyState is at least 2, and otherwise installs once-only
loadeddata/canplay listeners (lines 201-215) that will call attemptPlay
when the media becomes ready - modelled by arming pendingLoadPlay, with
no cleanup ever removing them; just-became-hidden pauses, rewinds and
clears the flag; visible, unmuted and paused resumes (a successful
play() fires the play event, which sets the flag); hidden with unpaused
audio pauses, rewinds and clears.  Finally prevVisibleRef is updated to
the current isVisible. -/
def playPauseEffect (playOk : Bool) (c : Card) : PlayOutcome :=
  match c.audio with
  | none => ⟨c, 0, 0⟩
  | some ae =>
    if !c.hasVoiceover then ⟨c, 0, 0⟩
    else
      let justBecameVisible := c.isVisible && !c.prevVisible
      let justBecameHidden := !c.isVisible && c.prevVisible
      let r : PlayOutcome :=
        if justBecameVisible && !c.muted then
          let c0 : Card := { c with audio := some { ae with currentTime := 0 } }
          if ae.readyState ≥ 2 then attemptPlay playOk c0
          else ⟨{ c0 with pendingLoadPlay := true }, 0, 0⟩
        else if justBecameHidden then
          ⟨{ c with audio := some { ae with paused := true, currentTime := 0 },
                    playing := false }, 0, 0⟩
        else if c.isVisible && !c.muted && ae.paused && !justBecameVisible then
          if playOk then
            ⟨{ c with audio := some { ae with paused := false }, playing := true }, 1, 0⟩
          else ⟨c, 1, 1⟩
        else if !c.isVisible && !ae.paused then
          ⟨{ c with audio := some { ae with paused := true, currentTime := 0 },
                    playing := false }, 0, 0⟩
        else ⟨c, 0, 0⟩
      ⟨{ r.card with prevVisible := c.isVisible }, r.playCalls, r.rejectionsLogged⟩

/-- The once-only loadeddata/canplay listeners installed by an
activation that found the audio unbuffered (FullScreenRecipeCard.tsx
lines 201-215) firing when the media becomes ready.  The source
installs them with no visibility re-check inside attemptPlay and no
effect cleanup removing them, so they run as-is whatever the card's
visibility has become; firing consumes them (once: true).  Both
listeners call the same attemptPlay, which is idempotent on the element
state, so one armed flag models the pair. -/
def deferredPlayFire (playOk : Bool) (c : Card) : PlayOutcome :=
  if c.pendingLoadPlay then attemptPlay playOk { c with pendingLoadPlay := false }
  else ⟨c, 0, 0⟩

/-- The oncanplay callback installed by the audio loading effect
(FullScreenRecipeCard.tsx lines 146-155): if the card is visible and
unmuted, rewind to 0 and play. -/
def audioCanPlayHandler (playOk : Bool) (c : Card) : PlayOutcome :=
  match c.audio with
  | none => ⟨c, 0, 0⟩
  | some ae =>
    if c.isVisible && !c.muted then
      if playOk then
        ⟨{ c with audio := some { ae with currentTime := 0, paused := false },
                  playing := true }, 1, 0⟩
      else ⟨{ c with audio := some { ae with currentTime := 0 } }, 1, 1⟩
    else ⟨c, 0, 0⟩

/-- The user play/pause control toggleVoiceover (FullScreenRecipeCard.tsx
lines 331-340): pause when the flag is set (the pause event clears the
flag), otherwise play (the play event sets it on success). -/
def toggleVoiceover (playOk : Bool) (c : Card) : PlayOutcome :=
  match c.audio with
  | none => ⟨c, 0, 0⟩
  | some ae =>
    if c.playing then
      ⟨{ c with audio := some { ae with paused := true }, playing := false }, 0, 0⟩
    else if playOk then
      ⟨{ c with audio := some { ae with paused := false }, playing := true }, 1, 0⟩
    else ⟨c, 1, 1⟩

/-- The video loading effect (FullScreenRecipeCard.tsx lines 94-129): if
a video element and at least one URL are present and the source differs,
assign the first URL, load (which rewinds to 0) and play; the effect
never reads isVisible. -/
def videoLoadingEffect (playOk : Bool) (videoUrls : List String) (c : Card) : Card :=
  match c.video with
  | none => c
  | some ve =>
    match videoUrls with
    | [] => c
    | url :: _ =>
      if ve.src ≠ url then
        { c with video := some { ve with src := url, currentTime := 0, paused := !playOk } }
      else c

/-! ### The mounted list of cards

A mounted feed is a function from position to card state (FeedView
renders the card at position j with isVisible = (visibleItemIndex == j)
and recipeIndex = j; FavoritesView does the same except every card gets
recipeIndex = 0).  A change of the published visible index from a to b
re-renders every card's isVisible prop and then re-runs the effects of
the two cards whose isVisible changed, in mount order; the broadcast of
the newly visible card is delivered synchronously to every mounted
card's stopAllRecipeAudio listener. -/

/-- Re-render after the published index becomes b: card j's isVisible
prop is (j == b). -/
def renderVisibility (b : Nat) (f : Nat → Card) : Nat → Card :=
  fun j => { f j with isVisible := j == b }

/-- Synchronous window dispatch: every mounted card's listener runs. -/
def deliverStop (ev : StopEvent) (f : Nat → Card) : Nat → Card :=
  fun j => handleStopAudio ev (f j)

/-- Run the effects of the card at position i: the audio-manager effect
first (dispatching to everyone if it broadcasts), then the play/pause
effect of that card. -/
def runCardEffects (playOk : Bool) (i : Nat) (f : Nat → Card) : Nat → Card :=
  let f1 := match broadcastEffect (f i) with
    | some ev => deliverStop ev f
    | none => f
  Function.update f1 i (playPauseEffect playOk (f1 i)).card

/-- One visibility-index change from a to b: re-render the isVisible
props, then run the effects of the two affected cards in mount order. -/
def visibilityStep (playOk : Nat → Bool) (a b : Nat) (f : Nat → Card) : Nat → Card :=
  let g := renderVisibility b f
  if a ≤ b then runCardEffects (playOk b) b (runCardEffects (playOk a) a g)
  else runCardEffects (playOk a) a (runCardEffects (playOk b) b g)

/-- A card state is consistent when its playing flag can only be set if
it actually has a voiceover and its audio element is playing. -/
def goodCard (c : Card) : Prop :=
  c.playing = true → c.hasVoiceover = true ∧ ∃ ae, c.audio = some ae ∧ ae.paused = false

/-- At every position, the card is consistent and only the card at the
published index v may have its playing flag set. -/
def atMostOneActive (v : Nat) (f : Nat → Card) : Prop :=
  ∀ j, goodCard (f j) ∧ (j ≠ v → (f j).playing = false)

/-- No mounted card has armed deferred-play once-listeners left on its
audio element. -/
def noArmedListeners (f : Nat → Card) : Prop :=
  ∀ j, (f j).pendingLoadPlay = false

/-- The card's audio element, if rendered, is buffered enough for
immediate playback (readyState at least HAVE_CURRENT_DATA), so an
activation plays at once instead of arming load listeners. -/
def audioReady (c : Card) : Prop :=
  ∀ ae, c.audio = some ae → ae.readyState ≥ 2

/-! ### Audio/video synchronization (sync effect, lines 276-329)

The closure state of the sync effect: the two media elements, the
lastVideoTime local, and the pending 2-second timeout, which carries its
scheduled fire time and the video currentTime captured when it was
scheduled.  checksFired and correctionsApplied count, for the analysis,
how often the timeout body ran and how often it rewrote the audio
position. -/

structure SyncState where
  muted : Bool
  audio : AudioEl
  video : VideoEl
  lastVideoTime : ℚ
  pending : Option (ℚ × ℚ)
  checksFired : Nat
  correctionsApplied : Nat
  deriving Repr, DecidableEq

/-- JavaScript remainder for nonnegative operands, as used in
currentTime % audioElement.duration. -/
def jsMod (x y : ℚ) : ℚ := x - y * ⌊x / y⌋

/-- The timeupdate handler handleVideoTimeUpdate
(FullScreenRecipeCard.tsx lines 285-319) at wall-clock time now: detect
a loop wraparound (lastVideoTime within 0.3 of the duration and
currentTime under 0.3) and, when unmuted, rewind the audio and play it
if it was paused; then update lastVideoTime, clear any pending sync
timeout and schedule a new one 2 seconds from now capturing the current
video time. -/
def handleVideoTimeUpdate (playOk : Bool) (now : ℚ) (st : SyncState) : SyncState :=
  let currentTime := st.video.currentTime
  let duration := st.video.duration
  let st1 :=
    if duration ≠ 0 ∧ st.lastVideoTime > duration - 3/10 ∧ currentTime < 3/10 then
      if !st.muted then
        let paused1 := if st.audio.paused then !playOk else st.audio.paused
        { st with audio := { st.audio with currentTime := 0, paused := paused1 } }
      else st
    else st
  { st1 with lastVideoTime := currentTime, pending := some (now + 2, currentTime) }

/-- The body of the 2-second sync timeout (FullScreenRecipeCard.tsx
lines 309-318): if both elements are playing and the audio position
differs from the captured video position modulo the audio duration by
more than 1 second, rewrite the audio position to that value. -/
def fireSyncCheck (st : SyncState) : SyncState :=
  match st.pending with
  | none => st
  | some (_, capturedTime) =>
    let st1 := { st with pending := none, checksFired := st.checksFired + 1 }
    if st1.audio.paused = false ∧ st1.video.paused = false then
      let expected := jsMod capturedTime st1.audio.duration
      if |st1.audio.currentTime - expected| > 1 then
        { st1 with audio := { st1.audio with currentTime := expected },
                   correctionsApplied := st1.correctionsApplied + 1 }
      else st1
    else st1

/-- Run a sequence of timeupdate events, each a pair of wall-clock time
and reported video currentTime, against the event loop: before an event
is handled, a pending timeout whose fire time has arrived runs first. -/
def processTimeupdates (playOk : Bool) : List (ℚ × ℚ) → SyncState → SyncState
  | [], st => st
  | (t, vt) :: rest, st =>
    let st1 := match st.pending with
      | some (ft, _) => if ft ≤ t then fireSyncCheck st else st
      | none => st
    let st2 := handleVideoTimeUpdate playOk t { st1 with video := { st1.video with currentTime := vt } }
    processTimeupdates playOk rest st2

/-! ### Visibility estimators (FavoritesView part_001 lines 30-118,
FeedView part_003 lines 59-155; the two views' estimators are
line-for-line identical up to names and margins). -/

/-- Comparison against the running closest distance, initially
Infinity. -/
def ltInf (d : ℚ) : Option ℚ → Bool
  | none => true
  | some b => d < b

/-- The scan of handleScroll (part_001 lines 85-98): fold over the card
refs (none for a null ref) keeping the index of the strictly closest
center so far; closestIndex starts at -1 and closestDistance at
Infinity. -/
def scrollScanAux (vc : ℚ) : List (Option ℚ) → Nat → Int → Option ℚ → Int
  | [], _, best, _ => best
  | none :: rest, i, best, bestDist => scrollScanAux vc rest (i+1) best bestDist
  | some center :: rest, i, best, bestDist =>
    if ltInf |center - vc| bestDist then
      scrollScanAux vc rest (i+1) (Int.ofNat i) (some |center - vc|)
    else scrollScanAux vc rest (i+1) best bestDist

/-- closestIndex produced by one run of handleScroll over the list of
card centers. -/
def scrollScan (vc : ℚ) (centers : List (Option ℚ)) : Int :=
  scrollScanAux vc centers 0 (-1) none

/-- cardCenter as computed in handleScroll (part_001 lines 87-90). -/
def cardCenter (scrollerTop scrollTop rectTop height : ℚ) : ℚ :=
  (rectTop - scrollerTop + scrollTop) + height / 2

/-- The publish gate shared by both estimators (part_001 lines 51 and
100, part_003 lines 83 and 134): a proposed index is published only
when it is nonnegative and differs from the current one. -/
def proposePublish (proposed current : Int) : Option Int :=
  if proposed ≥ 0 ∧ proposed ≠ current then some proposed else none

/-- One full run of the scroll estimator: compute the viewport center
line and each card's center, scan for the closest, and publish through
the gate, returning the new published index. -/
def handleScroll (viewportHeight scrollTop scrollerTop : ℚ)
    (rects : List (Option (ℚ × ℚ))) (current : Int) : Int :=
  let viewportCenter := scrollTop + viewportHeight / 2
  let centers := rects.map (Option.map (fun r => cardCenter scrollerTop scrollTop r.1 r.2))
  match proposePublish (scrollScan viewportCenter centers) current with
  | some i => i
  | none => current

/-- The scan of the IntersectionObserver callback (part_001 lines
39-54, part_003 lines 68-87): fold over the batch entries, each a
parsed data index and an intersection ratio, keeping the first entry
whose ratio strictly exceeds the running maximum; mostVisibleIndex
starts at -1 and maxRatio at 0. -/
def intersectionScanAux : List (Int × ℚ) → Int → ℚ → Int × ℚ
  | [], best, maxR => (best, maxR)
  | (idx, ratio) :: rest, best, maxR =>
    if idx ≥ 0 ∧ ratio > maxR then intersectionScanAux rest idx ratio
    else intersectionScanAux rest best maxR

/-- mostVisibleIndex and maxRatio after one observation batch. -/
def intersectionScan (entries : List (Int × ℚ)) : Int × ℚ :=
  intersectionScanAux entries (-1) 0

/-- One full run of the intersection estimator, publishing through the
gate. -/
def observerCallback (entries : List (Int × ℚ)) (current : Int) : Int :=
  match proposePublish (intersectionScan entries).1 current with
  | some i => i
  | none => current

/-- The observer effect is installed only when the list is nonempty
(part_001 line 31, part_003 line 60). -/
def observerEffectStep (numCards : Nat) (entries : List (Int × ℚ)) (current : Int) : Int :=
  if numCards = 0 then current else observerCallback entries current

/-- The scroll effect is installed only when the list is nonempty
(part_001 line 75, part_003 line 109). -/
def scrollEffectStep (numCards : Nat) (viewportHeight scrollTop scrollerTop : ℚ)
    (rects : List (Option (ℚ × ℚ))) (current : Int) : Int :=
  if numCards = 0 then current
  else handleScroll viewportHeight scrollTop scrollerTop rects current

/-- Initial value of visibleFavoriteIndex: useState(0) at
part_001 line 15. -/
def visibleFavoriteIndexInit : Int := 0

/-- Initial value of visibleItemIndex: useState(0) at part_003
line 16. -/
def visibleItemIndexInit : Int := 0

/-! ### Rendering and the card controller -/

/-- JavaScript truthiness of an optional string (the double-bang on
voiceoverUrl at FullScreenRecipeCard.tsx line 51): undefined and the
empty string are falsy. -/
def jsTruthyStr : Option String → Bool
  | none => false
  | some s => !(s == "")

/-- What one FullScreenRecipeCard renders (FullScreenRecipeCard.tsx
lines 369-506): a video element with muted, autoPlay and loop when
videoUrls is nonempty, otherwise the static gradient placeholder; a
hidden audio element only when a voiceover URL is present. -/
structure RenderedCard where
  videoEl : Bool
  gradientPlaceholder : Bool
  audioEl : Bool
  videoMuted : Bool
  videoAutoPlay : Bool
  videoLoop : Bool
  deriving Repr, DecidableEq

/-- The render function of FullScreenRecipeCard, driven by hasVideo
(line 47) and hasVoiceover (line 51). -/
def renderCard (videoUrls : List String) (voiceoverUrl : Option String) : RenderedCard :=
  let hasVideo := !videoUrls.isEmpty
  let hasVoiceover := jsTruthyStr voiceoverUrl
  { videoEl := hasVideo
    gradientPlaceholder := !hasVideo
    audioEl := hasVoiceover
    videoMuted := hasVideo
    videoAutoPlay := hasVideo
    videoLoop := hasVideo }

/-- Guard of the sync effect (FullScreenRecipeCard.tsx line 280): the
timeupdate and sync handlers are attached only when both refs are
attached, the card has video and voiceover, and it is visible. -/
def syncEffectInstalled (videoAttached audioAttached : Bool)
    (videoUrls : List String) (voiceoverUrl : Option String) (isVisible : Bool) : Bool :=
  videoAttached && audioAttached && !videoUrls.isEmpty && jsTruthyStr voiceoverUrl && isVisible

/-- The external favorites store, abstracted to the list of stored
records (keys). -/
structure FavoritesStore where
  favs : List String
  deriving Repr, DecidableEq

/-- Outcome of a click on the favorite button. -/
structure FavClickResult where
  isFavorited : Bool
  showLoginPrompt : Bool
  store : FavoritesStore
  notified : Bool
  deriving Repr, DecidableEq

/-- The favorite button onClick handler (FullScreenRecipeCard.tsx lines
422-445): an unauthenticated session only raises the login prompt; an
authenticated one with plan ingredients removes or adds the favorite,
flips the local flag, and notifies the favorite-change listener. -/
def favoriteClick (authed hasIngredients isFavorited : Bool)
    (showLoginPrompt : Bool) (store : FavoritesStore) (key : String) : FavClickResult :=
  if !authed then
    { isFavorited := isFavorited, showLoginPrompt := true, store := store, notified := false }
  else if hasIngredients then
    if isFavorited then
      { isFavorited := false, showLoginPrompt := showLoginPrompt,
        store := { favs := store.favs.filter (fun k => k ≠ key) }, notified := true }
    else
      { isFavorited := true, showLoginPrompt := showLoginPrompt,
        store := { favs := key :: store.favs }, notified := true }
  else
    { isFavorited := isFavorited, showLoginPrompt := showLoginPrompt,
      store := store, notified := false }

/-- The props RecipeScroller passes to each FullScreenRecipeCard
(RecipeScroller.tsx lines 50-61): neither isVisible nor recipeIndex is
passed, so both take their defaults false and 0
(FullScreenRecipeCard.tsx lines 26-27). -/
structure CardVisibilityProps where
  isVisible : Bool
  recipeIndex : Int
  deriving Repr, DecidableEq

/-- The visibility-related props of the n cards of a RecipeScroller. -/
def recipeScrollerCardProps (numRecipes : Nat) : List CardVisibilityProps :=
  (List.range numRecipes).map (fun _ => { isVisible := false, recipeIndex := 0 })

/-! ### Concrete states used to evaluate the model -/

/-- A favorites-feed card that is currently audible.  FavoritesView
mounts every card with recipeIndex = 0 (part_001 line 225). -/
def favCardPlaying : Card :=
  { recipeIndex := 0, hasVoiceover := true, muted := false, playing := true,
    prevVisible := true, pendingLoadPlay := false, isVisible := true,
    audio := some { paused := false, currentTime := 5, duration := 30,
                    volume := 1, readyState := 4 },
    video := none }

/-- Another favorites-feed card (also recipeIndex = 0) at the moment it
becomes visible. -/
def favCardActivating : Card :=
  { recipeIndex := 0, hasVoiceover := true, muted := false, playing := false,
    prevVisible := false, pendingLoadPlay := false, isVisible := true,
    audio := some { paused := true, currentTime := 0, duration := 30,
                    volume := 1, readyState := 4 },
    video := none }

/-- The first favorites card right after an activation that found its
audio unbuffered (readyState 0): the once-only deferred-play listeners
are armed and nothing will ever remove them. -/
def favCardUnbuffered : Card :=
  { recipeIndex := 0, hasVoiceover := true, muted := false, playing := false,
    prevVisible := true, pendingLoadPlay := true, isVisible := true,
    audio := some { paused := true, currentTime := 0, duration := 30,
                    volume := 1, readyState := 0 },
    video := none }

/-- A second mounted favorites card (recipeIndex 0, like every card in
FavoritesView), idle with buffered audio. -/
def favCardIdle1 : Card :=
  { recipeIndex := 0, hasVoiceover := true, muted := false, playing := false,
    prevVisible := false, pendingLoadPlay := false, isVisible := false,
    audio := some { paused := true, currentTime := 0, duration := 30,
                    volume := 1, readyState := 4 },
    video := none }

/-- A quiescent mounted card. -/
def idleCard : Card :=
  { recipeIndex := 0, hasVoiceover := true, muted := false, playing := false,
    prevVisible := false, pendingLoadPlay := false, isVisible := false,
    audio := some { paused := true, currentTime := 0, duration := 30,
                    volume := 1, readyState := 4 },
    video := none }

/-- A card about to be activated whose looping video is mid-clip at
position 5 and whose audio was previously paused mid-clip at
position 2. -/
def midLoopCard : Card :=
  { recipeIndex := 3, hasVoiceover := true, muted := false, playing := false,
    prevVisible := false, pendingLoadPlay := false, isVisible := true,
    audio := some { paused := true, currentTime := 2, duration := 30,
                    volume := 1, readyState := 4 },
    video := some { paused := false, currentTime := 5, duration := 8, src := "v.mp4" } }

/-- A sync-effect state whose card is muted, observed right at a video
loop wraparound: lastVideoTime 7.8 on a duration-8 video, reported
currentTime 0.1. -/
def mutedSyncState : SyncState :=
  { muted := true,
    audio := { paused := true, currentTime := 3, duration := 20,
               volume := 1, readyState := 4 },
    video := { paused := false, currentTime := mkRat 1 10, duration := 8, src := "v" },
    lastVideoTime := mkRat 78 10, pending := none, checksFired := 0, correctionsApplied := 0 }

/-- A sync-effect state with both tracks playing and the audio 50
seconds away from the video position modulo the audio duration. -/
def driftedState : SyncState :=
  { muted := false,
    audio := { paused := false, currentTime := 50, duration := 20,
               volume := 1, readyState := 4 },
    video := { paused := false, currentTime := 0, duration := 100, src := "v" },
    lastVideoTime := 0, pending := none, checksFired := 0, correctionsApplied := 0 }

/-- Four seconds of continuous playback: timeupdate events every 0.25
seconds with the video position advancing in lockstep. -/
def driftEvents : List (ℚ × ℚ) :=
  (List.range 17).map (fun k => (mkRat k 4, mkRat k 4))

/-- A card mounted without media: no videoUrls, no voiceover. -/
def bareCard : Card :=
  { recipeIndex := 0, hasVoiceover := false, muted := false, playing := false,
    prevVisible := false, pendingLoadPlay := false, isVisible := true,
    audio := none, video := none }

/-- A card as mounted by the single-plan RecipeScroller: default
isVisible (false) and recipeIndex (0), video not yet loaded. -/
def scrollerCard : Card :=
  { recipeIndex := 0, hasVoiceover := true, muted := false, playing := false,
    prevVisible := false, pendingLoadPlay := false, isVisible := false,
    audio := some { paused := true, currentTime := 0, duration := 30,
                    volume := 1, readyState := 4 },
    video := some { paused := true, currentTime := 0, duration := 8, src := "" } }

/-! ## Helper lemmas -/

theorem goodCard_of_not_playing {c : Card} (h : c.playing = false) : goodCard c := by
  intro hp
  rw [h] at hp
  cases hp

theorem handleStopAudio_playing {ev : StopEvent} {c : Card}
    (h : (handleStopAudio ev c).playing = true) : c.playing = true := by
  unfold handleStopAudio at h
  split at h
  · rcases hau : c.audio with _ | ae <;> rw [hau] at h
    · exact h
    · cases h
  · exact h

theorem handleStopAudio_good {ev : StopEvent} {c : Card} (hg : goodCard c) :
    goodCard (handleStopAudio ev c) := by
  unfold handleStopAudio
  split
  · rcases hau : c.audio with _ | ae
    · exact hg
    · intro hp
      cases hp
  · exact hg

theorem handleStopAudio_isVisible (ev : StopEvent) (c : Card) :
    (handleStopAudio ev c).isVisible = c.isVisible := by
  unfold handleStopAudio
  split
  · rcases c.audio with _ | ae <;> rfl
  · rfl

theorem handleStopAudio_self {c : Card} {ev : StopEvent}
    (h : broadcastEffect c = some ev) : handleStopAudio ev c = c := by
  unfold broadcastEffect at h
  split at h
  · rw [Option.some.injEq] at h
    unfold handleStopAudio
    rw [← h]
    simp
  · cases h

theorem playPauseEffect_hidden {p : Bool} {c : Card} (h : c.isVisible = false)
    (hg : goodCard c) : (playPauseEffect p c).card.playing = false := by
  rcases hau : c.audio with _ | ae
  · simp only [playPauseEffect, hau]
    cases hp : c.playing
    · rfl
    · obtain ⟨_, ae, hae, _⟩ := hg hp
      rw [hau] at hae
      cases hae
  · simp only [playPauseEffect, hau, h]
    by_cases hvo : c.hasVoiceover
    · simp only [hvo, Bool.not_true, Bool.false_and, Bool.true_and, Bool.false_eq_true,
        if_false, Bool.not_false]
      by_cases hpv : c.prevVisible
      · simp [hpv]
      · simp only [hpv, Bool.and_false, Bool.false_eq_true, if_false, Bool.and_self]
        cases hpa : ae.paused
        · simp
        · simp only [Bool.not_true, Bool.false_eq_true, if_false]
          cases hp : c.playing
          · rfl
          · obtain ⟨_, ae2, hae2, hpa2⟩ := hg hp
            rw [hau, Option.some.injEq] at hae2
            rw [hae2, hpa2] at hpa
            cases hpa
    · simp only [Bool.not_eq_true] at hvo
      simp only [hvo, Bool.not_false, if_true]
      cases hp : c.playing
      · rfl
      · obtain ⟨hvo2, _⟩ := hg hp
        rw [hvo] at hvo2
        cases hvo2

theorem playPauseEffect_good {p : Bool} {c : Card} (hp : c.playing = false) :
    goodCard (playPauseEffect p c).card := by
  rcases hau : c.audio with _ | ae
  · simp only [playPauseEffect, hau]
    exact goodCard_of_not_playing hp
  · simp only [playPauseEffect, hau]
    by_cases hvo : c.hasVoiceover
    · simp only [hvo, Bool.not_true, Bool.false_eq_true, if_false]
      set jbv := c.isVisible && !c.prevVisible with hjbv
      set jbh := !c.isVisible && c.prevVisible with hjbh
      by_cases h1 : (jbv && !c.muted) = true
      · simp only [h1, if_true]
        by_cases hrs : ae.readyState ≥ 2
        · simp only [hrs, if_true]
          cases p
          · simp [attemptPlay]
            exact fun h => absurd (h ▸ hp) (by simp)
          · simp [attemptPlay, goodCard, hvo]
        · simp only [hrs, if_false]
          exact fun h => absurd (h ▸ hp) (by simp)
      · simp only [h1, Bool.false_eq_true, if_false]
        by_cases h2 : jbh = true
        · simp only [h2, if_true]
          intro h
          cases h
        · simp only [h2, Bool.false_eq_true, if_false]
          by_cases h3 : (c.isVisible && !c.muted && ae.paused && !jbv) = true
          · simp only [h3, if_true]
            cases p
            · simp only [Bool.false_eq_true, if_false]
              exact fun h => absurd (h ▸ hp) (by simp)
            · simp [goodCard, hvo]
          · simp only [h3, Bool.false_eq_true, if_false]
            by_cases h4 : (!c.isVisible && !ae.paused) = true
            · simp only [h4, if_true]
              intro h
              cases h
            · simp only [h4, Bool.false_eq_true, if_false]
              exact fun h => absurd (h ▸ hp) (by simp)
    · simp only [Bool.not_eq_true] at hvo
      simp only [hvo, Bool.not_false, if_true]
      exact goodCard_of_not_playing hp

theorem playPauseEffect_hidden_playCalls {p : Bool} {c : Card} (h : c.isVisible = false) :
    (playPauseEffect p c).playCalls = 0 := by
  rcases hau : c.audio with _ | ae
  · simp [playPauseEffect, hau]
  · simp only [playPauseEffect, hau, h]
    by_cases hvo : c.hasVoiceover
    · simp only [hvo, Bool.not_true, Bool.false_and, Bool.true_and, Bool.false_eq_true,
        if_false, Bool.not_false]
      by_cases hpv : c.prevVisible
      · simp [hpv]
      · simp only [hpv, Bool.and_false, Bool.false_eq_true, if_false, Bool.and_self]
        cases hpa : ae.paused <;> simp
    · simp only [Bool.not_eq_true] at hvo
      simp [hvo]

theorem runCardEffects_self (p : Bool) (i : Nat) (f : Nat → Card) :
    runCardEffects p i f i = (playPauseEffect p (f i)).card := by
  unfold runCardEffects
  rcases hb : broadcastEffect (f i) with _ | ev
  · simp [Function.update_same]
  · simp only [Function.update_same]
    rw [show deliverStop ev f i = f i from handleStopAudio_self hb]

theorem runCardEffects_other (p : Bool) (i j : Nat) (f : Nat → Card) (hij : j ≠ i) :
    runCardEffects p i f j = f j ∨
      ∃ ev, runCardEffects p i f j = handleStopAudio ev (f j) := by
  unfold runCardEffects
  rcases hb : broadcastEffect (f i) with _ | ev
  · left
    simp [Function.update_noteq hij]
  · right
    exact ⟨ev, by simp [Function.update_noteq hij, deliverStop]⟩

theorem stopPreserve_not_playing {ev : StopEvent} {c : Card} (h : c.playing = false) :
    (handleStopAudio ev c).playing = false := by
  cases hr : (handleStopAudio ev c).playing
  · rfl
  · rw [handleStopAudio_playing hr] at h
    cases h

theorem playPauseEffect_isVisible (p : Bool) (c : Card) :
    (playPauseEffect p c).card.isVisible = c.isVisible := by
  rcases hau : c.audio with _ | ae
  · simp [playPauseEffect, hau]
  · simp only [playPauseEffect, hau]
    cases p <;> split_ifs <;> rfl

theorem runCardEffects_good_other {p : Bool} {i j : Nat} {g : Nat → Card}
    (hij : j ≠ i) (hgood : goodCard (g j)) : goodCard (runCardEffects p i g j) := by
  rcases runCardEffects_other p i j g hij with h | ⟨ev, h⟩ <;> rw [h]
  · exact hgood
  · exact handleStopAudio_good hgood

theorem runCardEffects_notPlaying_other {p : Bool} {i j : Nat} {g : Nat → Card}
    (hij : j ≠ i) (hp : (g j).playing = false) :
    (runCardEffects p i g j).playing = false := by
  rcases runCardEffects_other p i j g hij with h | ⟨ev, h⟩ <;> rw [h]
  · exact hp
  · exact stopPreserve_not_playing hp

theorem runCardEffects_isVisible (p : Bool) (i j : Nat) (g : Nat → Card) :
    (runCardEffects p i g j).isVisible = (g j).isVisible := by
  by_cases hij : j = i
  · subst hij
    rw [runCardEffects_self]
    exact playPauseEffect_isVisible p (g j)
  · rcases runCardEffects_other p i j g hij with h | ⟨ev, h⟩
    · rw [h]
    · rw [h]
      exact handleStopAudio_isVisible ev (g j)

theorem handleStopAudio_pending (ev : StopEvent) (c : Card) :
    (handleStopAudio ev c).pendingLoadPlay = c.pendingLoadPlay := by
  unfold handleStopAudio
  split
  · rcases c.audio with _ | ae <;> rfl
  · rfl

theorem handleStopAudio_audioReady {ev : StopEvent} {c : Card} (h : audioReady c) :
    audioReady (handleStopAudio ev c) := by
  unfold handleStopAudio
  split
  · rcases hau : c.audio with _ | ae
    · exact h
    · intro ae2 hae2
      rw [Option.some.injEq] at hae2
      rw [← hae2]
      exact h ae hau
  · exact h

theorem playPauseEffect_pending_hidden {p : Bool} {c : Card} (h : c.isVisible = false) :
    (playPauseEffect p c).card.pendingLoadPlay = c.pendingLoadPlay := by
  rcases hau : c.audio with _ | ae
  · simp [playPauseEffect, hau]
  · simp only [playPauseEffect, hau, h]
    by_cases hvo : c.hasVoiceover
    · simp only [hvo, Bool.not_true, Bool.false_and, Bool.true_and, Bool.false_eq_true,
        if_false, Bool.not_false]
      by_cases hpv : c.prevVisible
      · simp [hpv]
      · simp only [hpv, Bool.and_false, Bool.false_eq_true, if_false, Bool.and_self]
        cases hpa : ae.paused <;> simp
    · simp only [Bool.not_eq_true] at hvo
      simp [hvo]

theorem playPauseEffect_pending_ready {p : Bool} {c : Card} (h : audioReady c) :
    (playPauseEffect p c).card.pendingLoadPlay = c.pendingLoadPlay := by
  rcases hau : c.audio with _ | ae
  · simp [playPauseEffect, hau]
  · have hrs : ae.readyState ≥ 2 := h ae hau
    simp only [playPauseEffect, hau]
    by_cases hvo : c.hasVoiceover
    · simp only [hvo, Bool.not_true, Bool.false_eq_true, if_false]
      set jbv := c.isVisible && !c.prevVisible with hjbv
      set jbh := !c.isVisible && c.prevVisible with hjbh
      by_cases h1 : (jbv && !c.muted) = true
      · simp only [h1, if_true, hrs, if_true]
        cases p <;> simp [attemptPlay]
      · simp only [h1, Bool.false_eq_true, if_false]
        by_cases h2 : jbh = true
        · simp [h2]
        · simp only [h2, Bool.false_eq_true, if_false]
          by_cases h3 : (c.isVisible && !c.muted && ae.paused && !jbv) = true
          · simp only [h3, if_true]
            cases p <;> simp
          · simp only [h3, Bool.false_eq_true, if_false]
            by_cases h4 : (!c.isVisible && !ae.paused) = true
            · simp [h4]
            · simp [h4]
    · simp only [Bool.not_eq_true] at hvo
      simp [hvo]

theorem deferredPlayFire_noop {p : Bool} {c : Card} (h : c.pendingLoadPlay = false) :
    deferredPlayFire p c = ⟨c, 0, 0⟩ := by
  simp [deferredPlayFire, h]

theorem runCardEffects_pending_other {p : Bool} {i j : Nat} {g : Nat → Card}
    (hij : j ≠ i) :
    (runCardEffects p i g j).pendingLoadPlay = (g j).pendingLoadPlay := by
  rcases runCardEffects_other p i j g hij with h | ⟨ev, h⟩
  · rw [h]
  · rw [h]
    exact handleStopAudio_pending ev (g j)

theorem runCardEffects_audioReady_other {p : Bool} {i j : Nat} {g : Nat → Card}
    (hij : j ≠ i) (h : audioReady (g j)) :
    audioReady (runCardEffects p i g j) := by
  rcases runCardEffects_other p i j g hij with heq | ⟨ev, heq⟩ <;> rw [heq]
  · exact h
  · exact handleStopAudio_audioReady h

/-- Preservation of the single-playback invariant across one pass of
effects at position x followed by one at position y, where the pair
(x, y) is (a, b) or (b, a): the previously published index was a, the
newly published one is b, every card's isVisible prop has already been
re-rendered against b, no card carries armed deferred-play listeners,
and the activated card's audio is buffered (so the activation plays at
once instead of arming new listeners). -/
theorem twoPassInvariant (p1 p2 : Bool) (a b x y : Nat) (g : Nat → Card)
    (hab : a ≠ b) (hxy : (x = a ∧ y = b) ∨ (x = b ∧ y = a))
    (hgood : ∀ j, goodCard (g j))
    (hplay : ∀ j, j ≠ a → (g j).playing = false)
    (hvis : ∀ j, j ≠ b → (g j).isVisible = false)
    (harm : ∀ j, (g j).pendingLoadPlay = false)
    (hready : audioReady (g b)) :
    atMostOneActive b (runCardEffects p2 y (runCardEffects p1 x g)) ∧
    noArmedListeners (runCardEffects p2 y (runCardEffects p1 x g)) := by
  set g1 := runCardEffects p1 x g with hg1
  have hgood1 : ∀ k, goodCard (g1 k) := by
    intro k
    by_cases hkx : k = x
    · subst hkx
      rw [hg1, runCardEffects_self]
      rcases hxy with ⟨hx, _⟩ | ⟨hx, _⟩
      · subst hx
        exact goodCard_of_not_playing (playPauseEffect_hidden (hvis _ hab) (hgood _))
      · subst hx
        exact playPauseEffect_good (hplay _ (Ne.symm hab))
    · exact runCardEffects_good_other hkx (hgood k)
  have hvis1 : ∀ k, k ≠ b → (g1 k).isVisible = false := by
    intro k hk
    rw [hg1, runCardEffects_isVisible]
    exact hvis k hk
  have hpend1 : ∀ k, (g1 k).pendingLoadPlay = false := by
    intro k
    by_cases hkx : k = x
    · subst hkx
      rw [hg1, runCardEffects_self]
      rcases hxy with ⟨hx, _⟩ | ⟨hx, _⟩
      · subst hx
        rw [playPauseEffect_pending_hidden (hvis _ hab)]
        exact harm _
      · subst hx
        rw [playPauseEffect_pending_ready hready]
        exact harm _
    · rw [hg1, runCardEffects_pending_other hkx]
      exact harm k
  refine ⟨fun j => ?_, fun j => ?_⟩
  case refine_2 =>
    by_cases hjy : j = y
    · subst hjy
      rw [runCardEffects_self]
      rcases hxy with ⟨hx, hy⟩ | ⟨hx, hy⟩
      · subst hx
        subst hy
        rw [playPauseEffect_pending_ready (by
          rw [hg1]
          exact runCardEffects_audioReady_other (Ne.symm hab) hready)]
        exact hpend1 _
      · subst hx
        subst hy
        rw [playPauseEffect_pending_hidden (hvis1 _ hab)]
        exact hpend1 _
    · rw [runCardEffects_pending_other hjy]
      exact hpend1 j
  constructor
  · by_cases hjy : j = y
    · subst hjy
      rw [runCardEffects_self]
      rcases hxy with ⟨hx, hy⟩ | ⟨hx, hy⟩
      · subst hx
        subst hy
        refine playPauseEffect_good ?_
        rw [hg1]
        exact runCardEffects_notPlaying_other (Ne.symm hab) (hplay _ (Ne.symm hab))
      · subst hx
        subst hy
        exact goodCard_of_not_playing
          (playPauseEffect_hidden (hvis1 _ hab) (hgood1 _))
    · exact runCardEffects_good_other hjy (hgood1 j)
  · intro hjb
    by_cases hjy : j = y
    · subst hjy
      rcases hxy with ⟨hx, hy⟩ | ⟨hx, hy⟩
      · exact absurd hy hjb
      · rw [runCardEffects_self]
        exact playPauseEffect_hidden (hvis1 _ hjb) (hgood1 _)
    · refine runCardEffects_notPlaying_other hjy ?_
      by_cases hjx : j = x
      · subst hjx
        rcases hxy with ⟨hx, _⟩ | ⟨hx, _⟩
        · rw [hg1, runCardEffects_self]
          exact playPauseEffect_hidden (hvis _ hjb) (hgood _)
        · exact absurd hx hjb
      · rw [hg1]
        refine runCardEffects_notPlaying_other hjx (hplay j ?_)
        rcases hxy with ⟨hx, _⟩ | ⟨_, hy⟩
        · exact hx ▸ hjx
        · exact hy ▸ hjy

/-- C1 (amended): across any visibility-index change from a to b on any
mounted list of cards (arbitrary recipeIndex props, hence both the main
feed and the favorites feed), provided no card carries armed
deferred-play load listeners and the newly visible card's audio is
already buffered (readyState at least 2), the single-playback invariant
is preserved: after the re-render and the synchronous effect pass, at
most one card, the newly visible one, has its playing flag set, no card
is left with armed listeners, and a later media-ready firing of the
deferred-play listeners is a no-op on every card, so the invariant also
holds at every later event-loop boundary.  The claim's stated
mechanism, that every other card is stopped by receiving the broadcast,
is refuted separately, as is the unrestricted invariant: an activation
that finds the audio unbuffered arms once-only load listeners with no
cleanup, which can later start a hidden card's audio. -/
theorem c1_at_most_one (playOk : Nat → Bool) (a b : Nat) (f : Nat → Card)
    (hab : a ≠ b) (hInv : atMostOneActive a f)
    (hArm : noArmedListeners f) (hReady : audioReady (f b)) :
    atMostOneActive b (visibilityStep playOk a b f) ∧
    noArmedListeners (visibilityStep playOk a b f) ∧
    ∀ j p2, deferredPlayFire p2 (visibilityStep playOk a b f j) =
      ⟨visibilityStep playOk a b f j, 0, 0⟩ := by
  have hgood : ∀ j, goodCard (renderVisibility b f j) := fun j => (hInv j).1
  have hplay : ∀ j, j ≠ a → (renderVisibility b f j).playing = false :=
    fun j hj => (hInv j).2 hj
  have hvis : ∀ j, j ≠ b → (renderVisibility b f j).isVisible = false := by
    intro j hj
    show (j == b) = false
    simp [hj]
  have harm : ∀ j, (renderVisibility b f j).pendingLoadPlay = false :=
    fun j => hArm j
  have hready : audioReady (renderVisibility b f b) := fun ae hae => hReady ae hae
  have hmain : atMostOneActive b (visibilityStep playOk a b f) ∧
      noArmedListeners (visibilityStep playOk a b f) := by
    unfold visibilityStep
    split
    · exact twoPassInvariant _ _ a b a b _ hab (Or.inl ⟨rfl, rfl⟩) hgood hplay hvis
        harm hready
    · exact twoPassInvariant _ _ a b b a _ hab (Or.inr ⟨rfl, rfl⟩) hgood hplay hvis
        harm hready
  exact ⟨hmain.1, hmain.2, fun j p2 => deferredPlayFire_noop (hmain.2 j)⟩

/-- C1 witness: a concrete two-card list, initially all idle with index 0
published, stepped to index 1. -/
theorem c1_at_most_one_witness :
    atMostOneActive 1 (visibilityStep (fun _ => true) 0 1 (fun _ => idleCard)) ∧
    noArmedListeners (visibilityStep (fun _ => true) 0 1 (fun _ => idleCard)) ∧
    ∀ j p2, deferredPlayFire p2 (visibilityStep (fun _ => true) 0 1 (fun _ => idleCard) j) =
      ⟨visibilityStep (fun _ => true) 0 1 (fun _ => idleCard) j, 0, 0⟩ :=
  c1_at_most_one (fun _ => true) 0 1 (fun _ => idleCard) (by decide)
    (fun _ => ⟨goodCard_of_not_playing rfl, fun _ => rfl⟩)
    (fun _ => rfl)
    (fun ae hae => by
      have h2 : some { paused := true, currentTime := 0, duration := 30,
                       volume := 1, readyState := 4 } = some ae := hae
      rw [Option.some.injEq] at h2
      rw [← h2]
      decide)

/-- C1 counterexample, two independent refutations on the favorites
feed (where every mounted card has recipeIndex 0, part_001 line 225).
First, the stop announcement broadcast by a card that just became
visible (exceptIndex 0) leaves another mounted, audibly playing
favorites card completely unchanged: not paused, not rewound, flag
still set - refuting the claimed broadcast mechanism.  Second, the
invariant itself fails at a later event-loop boundary: card 0, having
activated with unbuffered audio (its deferred-play listeners armed,
never cleaned up), is deactivated by a step to card 1 - its own
handler pauses it but leaves the listeners armed, and the broadcast
cannot stop it later - and when its media then becomes ready the
listeners start its audio, so both card 0 and card 1 have their playing
flags set simultaneously. -/
theorem c1_favorites_broadcast_noop :
    (broadcastEffect favCardActivating = some { exceptIndex := 0, newVisibleIndex := 0 } ∧
      favCardPlaying.playing = true ∧
      favCardPlaying.audio.map AudioEl.paused = some false ∧
      handleStopAudio { exceptIndex := 0, newVisibleIndex := 0 } favCardPlaying =
        favCardPlaying) ∧
    (let g := visibilityStep (fun _ => true) 0 1
      (fun j => if j = 0 then favCardUnbuffered else favCardIdle1)
     (g 0).playing = false ∧ (g 0).pendingLoadPlay = true ∧ (g 1).playing = true ∧
     (deferredPlayFire true (g 0)).card.playing = true ∧
     (deferredPlayFire true (g 0)).card.audio.map AudioEl.paused = some false ∧
     (g 1).audio.map AudioEl.paused = some false) := by
  decide

/-- C2 counterexample: activating midLoopCard (video mid-clip at
position 5) starts audio playback, yet the video element's position is
left at 5, not reset to 0: activation does not reset the video
position. -/
theorem c2_video_position_not_reset :
    (playPauseEffect true midLoopCard).card.playing = true ∧
    (playPauseEffect true midLoopCard).card.video =
      some { paused := false, currentTime := 5, duration := 8, src := "v.mp4" } ∧
    (5 : ℚ) ≠ 0 := by
  decide

/-- C2 (amended): every activation of a card with a voiceover rewinds
the audio element to position 0 before playback begins, even if the
audio was previously paused mid-clip; the video element is untouched by
activation, its position being reset only when the video loading effect
assigns a new source. -/
theorem c2_audio_restart_from_zero (p : Bool) (c : Card) (ae : AudioEl)
    (ve : VideoEl) (url : String) (rest : List String)
    (ha : c.audio = some ae) (hvo : c.hasVoiceover = true)
    (hv : c.isVisible = true) (hpv : c.prevVisible = false) (hm : c.muted = false) :
    (∃ ae2, (playPauseEffect p c).card.audio = some ae2 ∧ ae2.currentTime = 0) ∧
    (playPauseEffect p c).card.video = c.video ∧
    (c.video = some ve → ve.src ≠ url →
      (videoLoadingEffect p (url :: rest) c).video =
        some { ve with src := url, currentTime := 0, paused := !p }) := by
  refine ⟨?_, ?_, ?_⟩
  · simp only [playPauseEffect, ha, hvo, hv, hpv, hm, Bool.not_false, Bool.and_self,
      Bool.not_true, Bool.false_eq_true, if_false, if_true, Bool.true_and]
    by_cases hrs : ae.readyState ≥ 2
    · simp only [hrs, if_true]
      cases p <;> simp [attemptPlay]
    · simp [hrs]
  · simp only [playPauseEffect, ha, hvo, hv, hpv, hm, Bool.not_false, Bool.and_self,
      Bool.not_true, Bool.false_eq_true, if_false, if_true, Bool.true_and]
    by_cases hrs : ae.readyState ≥ 2
    · simp only [hrs, if_true]
      cases p <;> simp [attemptPlay]
    · simp [hrs]
  · intro hvid hsrc
    simp [videoLoadingEffect, hvid, hsrc]

/-- C2 witness. -/
theorem c2_audio_restart_from_zero_witness :
    (∃ ae2, (playPauseEffect true midLoopCard).card.audio = some ae2 ∧
      ae2.currentTime = 0) ∧
    (playPauseEffect true midLoopCard).card.video = midLoopCard.video ∧
    (midLoopCard.video = some { paused := false, currentTime := 5, duration := 8,
                                src := "v.mp4" } →
      ({ paused := false, currentTime := 5, duration := 8, src := "v.mp4" } : VideoEl).src ≠ "w.mp4" →
      (videoLoadingEffect true ["w.mp4"] midLoopCard).video =
        some { paused := false, currentTime := 0, duration := 8, src := "w.mp4" }) :=
  c2_audio_restart_from_zero true midLoopCard
    { paused := true, currentTime := 2, duration := 30, volume := 1, readyState := 4 }
    { paused := false, currentTime := 5, duration := 8, src := "v.mp4" }
    "w.mp4" [] rfl rfl rfl rfl rfl

/-- C3 counterexample: with the voiceover muted, a loop wraparound
(lastVideoTime 7.8 on a duration-8 video, reported time 0.1) leaves the
audio position at 3 and the audio paused: the handler does not force the
audio to 0. -/
theorem c3_muted_no_resync :
    mutedSyncState.video.duration ≠ 0 ∧
    mutedSyncState.lastVideoTime > mutedSyncState.video.duration - 3/10 ∧
    mutedSyncState.video.currentTime < 3/10 ∧
    (handleVideoTimeUpdate true 9 mutedSyncState).audio.currentTime = 3 ∧
    (handleVideoTimeUpdate true 9 mutedSyncState).audio.paused = true := by
  norm_num [handleVideoTimeUpdate, mutedSyncState, Rat.mkRat_eq_divInt, Rat.divInt_eq_div]

/-- C3 (amended): on a loop wraparound of the video (reported time
passing from above duration - 0.3 to under 0.3), provided the voiceover
is not muted, the same timeupdate handler forces the audio position to 0
and issues play if the audio had stalled (on success the element is no
longer paused). -/
theorem c3_loop_resync (p : Bool) (now : ℚ) (st : SyncState)
    (hm : st.muted = false) (hd : st.video.duration ≠ 0)
    (hlast : st.lastVideoTime > st.video.duration - 3/10)
    (hcur : st.video.currentTime < 3/10) :
    (handleVideoTimeUpdate p now st).audio.currentTime = 0 ∧
    (st.audio.paused = true → (handleVideoTimeUpdate p now st).audio.paused = !p) := by
  constructor
  · simp [handleVideoTimeUpdate, hm, hd, hlast, hcur]
  · intro hpa
    simp [handleVideoTimeUpdate, hm, hd, hlast, hcur, hpa]

/-- C4 (code bug): the 2-second sync check is cleared and rescheduled by
every timeupdate, so during continuous playback it never runs.  Over
four seconds of timeupdates every 0.25 seconds with both tracks playing
and the audio 50 seconds out of sync (far beyond the 1-second
tolerance), zero checks fire and the audio element is left completely
untouched, although the claim requires a check at most every 2 seconds
that reduces such divergence.  The check body runs only once timeupdates
cease: after a 3-second silence the pending timeout finally fires and
rewrites the audio position. -/
theorem c4_drift_check_debounced :
    (processTimeupdates true driftEvents driftedState).checksFired = 0 ∧
    (processTimeupdates true driftEvents driftedState).audio = driftedState.audio ∧
    |driftedState.audio.currentTime -
      jsMod driftedState.video.currentTime driftedState.audio.duration| > 1 ∧
    (processTimeupdates true (driftEvents ++ [(7, 7)]) driftedState).checksFired = 1 ∧
    (processTimeupdates true (driftEvents ++ [(7, 7)]) driftedState).audio.currentTime = 4 := by
  norm_num [processTimeupdates, handleVideoTimeUpdate, fireSyncCheck, driftEvents,
    driftedState, jsMod, List.range_succ, Rat.mkRat_eq_divInt, Rat.divInt_eq_div]

/-- C3 witness: an unmuted card at the same wraparound with stalled
audio. -/
theorem c3_loop_resync_witness :
    (handleVideoTimeUpdate true 9 { mutedSyncState with muted := false }).audio.currentTime = 0 ∧
    (({ mutedSyncState with muted := false } : SyncState).audio.paused = true →
      (handleVideoTimeUpdate true 9 { mutedSyncState with muted := false }).audio.paused = !true) :=
  c3_loop_resync true 9 { mutedSyncState with muted := false }
    rfl (by norm_num [mutedSyncState])
    (by norm_num [mutedSyncState, Rat.mkRat_eq_divInt, Rat.divInt_eq_div])
    (by norm_num [mutedSyncState, Rat.mkRat_eq_divInt, Rat.divInt_eq_div])

/-- Full characterization of the scroll estimator's scan: either no
scanned element beats the incoming best distance and the incoming best
index is returned, or the scan returns the offset position of the first
element realizing the minimum distance among those beating the incoming
bound. -/
theorem scrollScanAux_spec (vc : ℚ) (l : List (Option ℚ)) (i : Nat) (best : Int)
    (bd : Option ℚ) :
    (scrollScanAux vc l i best bd = best ∧
      ∀ j c, l.get? j = some (some c) → ltInf |c - vc| bd = false)
  ∨ (∃ j c, l.get? j = some (some c) ∧
      scrollScanAux vc l i best bd = (i : Int) + (j : Int) ∧
      ltInf |c - vc| bd = true ∧
      (∀ k c2, l.get? k = some (some c2) → |c - vc| ≤ |c2 - vc|) ∧
      (∀ k c2, k < j → l.get? k = some (some c2) → |c - vc| < |c2 - vc|)) := by
  induction l generalizing i best bd with
  | nil =>
    left
    exact ⟨rfl, fun j c h => by cases h⟩
  | cons hd tl ih =>
    cases hd with
    | none =>
      rcases ih (i+1) best bd with ⟨h1, h2⟩ | ⟨j, c, hj, hr, hlt, hmin, hfirst⟩
      · left
        refine ⟨h1, ?_⟩
        intro j c h
        cases j with
        | zero => simp at h
        | succ j2 => exact h2 j2 c h
      · right
        refine ⟨j+1, c, hj, ?_, hlt, ?_, ?_⟩
        · show scrollScanAux vc tl (i+1) best bd = _
          rw [hr]
          push_cast
          ring
        · intro k c2 hk
          cases k with
          | zero => simp at hk
          | succ k2 => exact hmin k2 c2 hk
        · intro k c2 hklt hk
          cases k with
          | zero => simp at hk
          | succ k2 => exact hfirst k2 c2 (Nat.lt_of_succ_lt_succ hklt) hk
    | some center =>
      by_cases hlt0 : ltInf |center - vc| bd = true
      · have hstep : scrollScanAux vc (some center :: tl) i best bd =
            scrollScanAux vc tl (i+1) (Int.ofNat i) (some |center - vc|) := by
          rw [scrollScanAux, if_pos hlt0]
        rcases ih (i+1) (Int.ofNat i) (some |center - vc|) with
          ⟨h1, h2⟩ | ⟨j, c, hj, hr, hlt, hmin, hfirst⟩
        · right
          refine ⟨0, center, rfl, ?_, hlt0, ?_, ?_⟩
          · rw [hstep, h1]
            simp
          · intro k c2 hk
            cases k with
            | zero =>
              rw [List.get?_cons_zero, Option.some.injEq, Option.some.injEq] at hk
              rw [hk]
            | succ k2 =>
              have := h2 k2 c2 hk
              simp only [ltInf, decide_eq_false_iff_not, not_lt] at this
              exact this
          · intro k c2 hklt hk
            exact absurd hklt (Nat.not_lt_zero k)
        · right
          have hcc : |c - vc| < |center - vc| := by
            simpa [ltInf] using hlt
          refine ⟨j+1, c, hj, ?_, ?_, ?_, ?_⟩
          · rw [hstep, hr]
            push_cast
            ring
          · cases bd with
            | none => rfl
            | some b =>
              have hb : |center - vc| < b := by simpa [ltInf] using hlt0
              simp only [ltInf, decide_eq_true_eq]
              exact lt_trans hcc hb
          · intro k c2 hk
            cases k with
            | zero =>
              rw [List.get?_cons_zero, Option.some.injEq, Option.some.injEq] at hk
              rw [← hk]
              exact le_of_lt hcc
            | succ k2 => exact hmin k2 c2 hk
          · intro k c2 hklt hk
            cases k with
            | zero =>
              rw [List.get?_cons_zero, Option.some.injEq, Option.some.injEq] at hk
              rw [← hk]
              exact hcc
            | succ k2 => exact hfirst k2 c2 (Nat.lt_of_succ_lt_succ hklt) hk
      · have hlt0f : ltInf |center - vc| bd = false := by
          cases h : ltInf |center - vc| bd
          · rfl
          · exact absurd h hlt0
        have hstep : scrollScanAux vc (some center :: tl) i best bd =
            scrollScanAux vc tl (i+1) best bd := by
          rw [scrollScanAux, if_neg hlt0]
        obtain ⟨b, hbd⟩ : ∃ b, bd = some b := by
          cases bd with
          | none => exact absurd rfl hlt0
          | some b => exact ⟨b, rfl⟩
        have hcb : b ≤ |center - vc| := by
          have := hlt0f
          rw [hbd] at this
          simpa [ltInf] using this
        rcases ih (i+1) best bd with ⟨h1, h2⟩ | ⟨j, c, hj, hr, hlt, hmin, hfirst⟩
        · left
          refine ⟨by rw [hstep, h1], ?_⟩
          intro j c h
          cases j with
          | zero =>
            rw [List.get?_cons_zero, Option.some.injEq, Option.some.injEq] at h
            rw [← h]
            exact hlt0f
          | succ j2 => exact h2 j2 c h
        · right
          have hcbd : |c - vc| < b := by
            have := hlt
            rw [hbd] at this
            simpa [ltInf] using this
          refine ⟨j+1, c, hj, ?_, hlt, ?_, ?_⟩
          · rw [hstep, hr]
            push_cast
            ring
          · intro k c2 hk
            cases k with
            | zero =>
              rw [List.get?_cons_zero, Option.some.injEq, Option.some.injEq] at hk
              rw [← hk]
              exact le_of_lt (lt_of_lt_of_le hcbd hcb)
            | succ k2 => exact hmin k2 c2 hk
          · intro k c2 hklt hk
            cases k with
            | zero =>
              rw [List.get?_cons_zero, Option.some.injEq, Option.some.injEq] at hk
              rw [← hk]
              exact lt_of_lt_of_le hcbd hcb
            | succ k2 => exact hfirst k2 c2 (Nat.lt_of_succ_lt_succ hklt) hk

/-- Top-level characterization of the scroll estimator: with at least
one registered (non-null) card, it returns the position of the card
whose center is strictly closest among all earlier cards and no farther
than any later one, i.e. the lowest-index minimizer of the distance to
the viewport center line. -/
theorem scrollScan_spec (vc : ℚ) (centers : List (Option ℚ)) (j0 : Nat) (c0 : ℚ)
    (hsome : centers.get? j0 = some (some c0)) :
    ∃ j c, centers.get? j = some (some c) ∧ scrollScan vc centers = (j : Int) ∧
      (∀ k c2, centers.get? k = some (some c2) → |c - vc| ≤ |c2 - vc|) ∧
      (∀ k c2, k < j → centers.get? k = some (some c2) → |c - vc| < |c2 - vc|) := by
  rcases scrollScanAux_spec vc centers 0 (-1) none with ⟨_, h2⟩ | ⟨j, c, hj, hr, _, hmin, hfirst⟩
  · have := h2 j0 c0 hsome
    simp [ltInf] at this
  · refine ⟨j, c, hj, ?_, hmin, hfirst⟩
    rw [show scrollScan vc centers = scrollScanAux vc centers 0 (-1) none from rfl, hr]
    simp

/-- Full characterization of the intersection estimator's scan: either
no entry with a nonnegative index strictly beats the incoming maximum
and the accumulator is returned unchanged, or the scan returns the first
entry realizing the maximum ratio among those beating it. -/
theorem intersectionScanAux_spec (l : List (Int × ℚ)) (best : Int) (maxR : ℚ) :
    (intersectionScanAux l best maxR = (best, maxR) ∧
      ∀ j idx r, l.get? j = some (idx, r) → idx ≥ 0 → ¬(r > maxR))
  ∨ (∃ j idx r, l.get? j = some (idx, r) ∧
      intersectionScanAux l best maxR = (idx, r) ∧ idx ≥ 0 ∧ r > maxR ∧
      (∀ k i2 r2, l.get? k = some (i2, r2) → i2 ≥ 0 → r2 ≤ r) ∧
      (∀ k i2 r2, k < j → l.get? k = some (i2, r2) → i2 ≥ 0 → r2 < r)) := by
  induction l generalizing best maxR with
  | nil =>
    left
    exact ⟨rfl, fun j idx r h => by cases h⟩
  | cons hd tl ih =>
    obtain ⟨idx0, r0⟩ := hd
    by_cases hc : idx0 ≥ 0 ∧ r0 > maxR
    · have hstep : intersectionScanAux ((idx0, r0) :: tl) best maxR =
          intersectionScanAux tl idx0 r0 := by
        rw [intersectionScanAux, if_pos hc]
      rcases ih idx0 r0 with ⟨h1, h2⟩ | ⟨j, idx, r, hj, hr, hge, hgt, hmax, hfirst⟩
      · right
        refine ⟨0, idx0, r0, rfl, ?_, hc.1, hc.2, ?_, ?_⟩
        · rw [hstep, h1]
        · intro k i2 r2 hk hge2
          cases k with
          | zero =>
            rw [List.get?_cons_zero, Option.some.injEq, Prod.mk.injEq] at hk
            rw [← hk.2]
          | succ k2 => exact not_lt.mp (h2 k2 i2 r2 hk hge2)
        · intro k i2 r2 hklt
          exact absurd hklt (Nat.not_lt_zero k)
      · right
        refine ⟨j+1, idx, r, hj, ?_, hge, lt_trans hc.2 hgt, ?_, ?_⟩
        · rw [hstep, hr]
        · intro k i2 r2 hk hge2
          cases k with
          | zero =>
            rw [List.get?_cons_zero, Option.some.injEq, Prod.mk.injEq] at hk
            rw [← hk.2]
            exact le_of_lt hgt
          | succ k2 => exact hmax k2 i2 r2 hk hge2
        · intro k i2 r2 hklt hk hge2
          cases k with
          | zero =>
            rw [List.get?_cons_zero, Option.some.injEq, Prod.mk.injEq] at hk
            rw [← hk.2]
            exact hgt
          | succ k2 => exact hfirst k2 i2 r2 (Nat.lt_of_succ_lt_succ hklt) hk hge2
    · have hstep : intersectionScanAux ((idx0, r0) :: tl) best maxR =
          intersectionScanAux tl best maxR := by
        rw [intersectionScanAux, if_neg hc]
      have hhd : idx0 ≥ 0 → r0 ≤ maxR := by
        intro hge0
        by_contra hlt
        exact hc ⟨hge0, not_le.mp hlt⟩
      rcases ih best maxR with ⟨h1, h2⟩ | ⟨j, idx, r, hj, hr, hge, hgt, hmax, hfirst⟩
      · left
        refine ⟨by rw [hstep, h1], ?_⟩
        intro j i2 r2 h hge2
        cases j with
        | zero =>
          rw [List.get?_cons_zero, Option.some.injEq, Prod.mk.injEq] at h
          rw [← h.2]
          exact not_lt.mpr (hhd (h.1 ▸ hge2))
        | succ j2 => exact h2 j2 i2 r2 h hge2
      · right
        refine ⟨j+1, idx, r, hj, by rw [hstep, hr], hge, hgt, ?_, ?_⟩
        · intro k i2 r2 hk hge2
          cases k with
          | zero =>
            rw [List.get?_cons_zero, Option.some.injEq, Prod.mk.injEq] at hk
            rw [← hk.2]
            exact le_of_lt (lt_of_le_of_lt (hhd (hk.1 ▸ hge2)) hgt)
          | succ k2 => exact hmax k2 i2 r2 hk hge2
        · intro k i2 r2 hklt hk hge2
          cases k with
          | zero =>
            rw [List.get?_cons_zero, Option.some.injEq, Prod.mk.injEq] at hk
            rw [← hk.2]
            exact lt_of_le_of_lt (hhd (hk.1 ▸ hge2)) hgt
          | succ k2 => exact hfirst k2 i2 r2 (Nat.lt_of_succ_lt_succ hklt) hk hge2

/-- Top-level characterization of the intersection estimator: whenever
it selects a nonnegative mostVisibleIndex, that index sits at a batch
position whose ratio is positive, no other valid entry has a larger
ratio, and every earlier batch position with a valid index has a
strictly smaller ratio. -/
theorem intersectionScan_most_visible (entries : List (Int × ℚ))
    (hpos : (intersectionScan entries).1 ≥ 0) :
    ∃ j r, entries.get? j = some ((intersectionScan entries).1, r) ∧ r > 0 ∧
      (∀ k i2 r2, entries.get? k = some (i2, r2) → i2 ≥ 0 → r2 ≤ r) ∧
      (∀ k i2 r2, k < j → entries.get? k = some (i2, r2) → i2 ≥ 0 → r2 < r) := by
  rcases intersectionScanAux_spec entries (-1) 0 with
    ⟨h1, _⟩ | ⟨j, idx, r, hj, hr, _, hgt, hmax, hfirst⟩
  · rw [show intersectionScan entries = intersectionScanAux entries (-1) 0 from rfl,
      h1] at hpos
    norm_num at hpos
  · have heq : intersectionScan entries = (idx, r) := hr
    refine ⟨j, r, ?_, hgt, ?_, ?_⟩
    · rw [heq]
      exact hj
    · intro k i2 r2 hk hge2
      exact hmax k i2 r2 hk hge2
    · intro k i2 r2 hklt hk hge2
      exact hfirst k i2 r2 hklt hk hge2

/-- C5: the scroll estimator selects, among registered (non-null)
cards, the index whose center has minimum absolute distance from the
viewport center line, ties broken by lowest index; the intersection
estimator, over a batch ordered by ascending card index (the order in
which the cards were observed), selects the index with the highest
intersection ratio, ties broken by lowest index; and either estimator
publishes a proposed index only when it is nonnegative and differs from
the currently published one (a no-op otherwise). -/
theorem c5_visibility_selection (vc : ℚ) (centers : List (Option ℚ)) (j0 : Nat)
    (c0 : ℚ) (hsome : centers.get? j0 = some (some c0))
    (entries : List (Int × ℚ))
    (hsorted : entries.Pairwise (fun e1 e2 => e1.1 < e2.1))
    (hpos : (intersectionScan entries).1 ≥ 0) (cur prop2 : Int) :
    (∃ j c, centers.get? j = some (some c) ∧ scrollScan vc centers = (j : Int) ∧
      (∀ k c2, centers.get? k = some (some c2) → |c - vc| ≤ |c2 - vc|) ∧
      (∀ k c2, centers.get? k = some (some c2) → |c2 - vc| = |c - vc| → j ≤ k)) ∧
    (∃ r, ((intersectionScan entries).1, r) ∈ entries ∧ r > 0 ∧
      (∀ e ∈ entries, e.1 ≥ 0 → e.2 ≤ r) ∧
      (∀ e ∈ entries, e.1 ≥ 0 → e.2 = r → (intersectionScan entries).1 ≤ e.1)) ∧
    proposePublish cur cur = none ∧
    (∀ r2, proposePublish prop2 cur = some r2 → r2 = prop2 ∧ r2 ≠ cur ∧ prop2 ≥ 0) := by
  refine ⟨?_, ?_, ?_, ?_⟩
  · obtain ⟨j, c, hj, hr, hmin, hfirst⟩ := scrollScan_spec vc centers j0 c0 hsome
    refine ⟨j, c, hj, hr, hmin, ?_⟩
    intro k c2 hk heq
    by_contra hlt
    push_neg at hlt
    exact absurd (heq ▸ hfirst k c2 hlt hk) (lt_irrefl _)
  · obtain ⟨j, r, hj, hrpos, hmax, hfirst⟩ := intersectionScan_most_visible entries hpos
    refine ⟨r, List.get?_mem hj, hrpos, ?_, ?_⟩
    · intro e he hge
      obtain ⟨k, hk⟩ := List.get?_of_mem he
      exact hmax k e.1 e.2 hk hge
    · intro e he hge her
      obtain ⟨k, hk⟩ := List.get?_of_mem he
      rcases lt_trichotomy k j with hkj | hkj | hkj
      · exact absurd (her ▸ hfirst k e.1 e.2 hkj hk hge) (lt_irrefl r)
      · subst hkj
        rw [hj, Option.some.injEq] at hk
        rw [← hk]
      · obtain ⟨hjl, hjget⟩ := List.get?_eq_some.mp hj
        obtain ⟨hkl, hkget⟩ := List.get?_eq_some.mp hk
        have hord := List.pairwise_iff_get.mp hsorted ⟨j, hjl⟩ ⟨k, hkl⟩ hkj
        rw [hjget, hkget] at hord
        exact le_of_lt hord
  · simp [proposePublish]
  · intro r2 hp
    unfold proposePublish at hp
    split at hp
    next h =>
      obtain rfl := Option.some.inj hp
      exact ⟨rfl, h.2, h.1⟩
    next h => cases hp

/-- C5 witness: three registered cards with centers 10, 2 and 5 against
a viewport center line at 0, so the closest is position 1; an
observation batch with ratios 0.5, 0.9 and 0.5 whose maximum sits at
index 1; current published index 0 and proposal 1. -/
theorem c5_visibility_selection_witness :
    (∃ j c, ([some 10, some 2, some 5] : List (Option ℚ)).get? j = some (some c) ∧
      scrollScan 0 [some 10, some 2, some 5] = (j : Int) ∧
      (∀ k c2, ([some 10, some 2, some 5] : List (Option ℚ)).get? k = some (some c2) →
        |c - 0| ≤ |c2 - 0|) ∧
      (∀ k c2, ([some 10, some 2, some 5] : List (Option ℚ)).get? k = some (some c2) →
        |c2 - 0| = |c - 0| → j ≤ k)) ∧
    (∃ r, ((intersectionScan [(0, mkRat 1 2), (1, mkRat 9 10), (2, mkRat 1 2)]).1, r) ∈
        ([(0, mkRat 1 2), (1, mkRat 9 10), (2, mkRat 1 2)] : List (Int × ℚ)) ∧ r > 0 ∧
      (∀ e ∈ ([(0, mkRat 1 2), (1, mkRat 9 10), (2, mkRat 1 2)] : List (Int × ℚ)),
        e.1 ≥ 0 → e.2 ≤ r) ∧
      (∀ e ∈ ([(0, mkRat 1 2), (1, mkRat 9 10), (2, mkRat 1 2)] : List (Int × ℚ)),
        e.1 ≥ 0 → e.2 = r →
        (intersectionScan [(0, mkRat 1 2), (1, mkRat 9 10), (2, mkRat 1 2)]).1 ≤ e.1)) ∧
    proposePublish 0 0 = none ∧
    (∀ r2, proposePublish 1 0 = some r2 → r2 = 1 ∧ r2 ≠ 0 ∧ (1 : Int) ≥ 0) :=
  c5_visibility_selection 0 [some 10, some 2, some 5] 0 10 rfl
    [(0, mkRat 1 2), (1, mkRat 9 10), (2, mkRat 1 2)] (by decide) (by decide) 0 1

/-- C6 counterexample: both published visible-index states are
initialized to 0 (part_001 line 15, part_003 line 16), not to the -1
no-card-active sentinel the claim requires. -/
theorem c6_init_is_zero_not_sentinel :
    visibleFavoriteIndexInit = 0 ∧ visibleItemIndexInit = 0 ∧
    visibleFavoriteIndexInit ≠ -1 ∧ visibleItemIndexInit ≠ -1 := by
  decide

/-- C6 (amended): the published active index is initialized to 0, not
-1; when the list is empty neither estimator effect is installed, so the
index keeps its current value (there is then no card to treat as
active); the -1 sentinel exists only as the estimators' internal scan
seed and is never published, because the publish gate only accepts a
nonnegative proposed index that differs from the current one. -/
theorem c6_empty_list_behavior (entries : List (Int × ℚ))
    (vh st sct : ℚ) (rects : List (Option (ℚ × ℚ))) (current p r : Int)
    (hp : proposePublish p current = some r) :
    visibleFavoriteIndexInit = 0 ∧ visibleItemIndexInit = 0 ∧
    observerEffectStep 0 entries current = current ∧
    scrollEffectStep 0 vh st sct rects current = current ∧
    0 ≤ r ∧ r ≠ current := by
  refine ⟨rfl, rfl, rfl, rfl, ?_⟩
  unfold proposePublish at hp
  split at hp
  next h =>
    obtain rfl := Option.some.inj hp
    exact ⟨h.1, h.2⟩
  next h => cases hp

/-- C6 witness. -/
theorem c6_empty_list_behavior_witness :
    visibleFavoriteIndexInit = 0 ∧ visibleItemIndexInit = 0 ∧
    observerEffectStep 0 [] 0 = 0 ∧
    scrollEffectStep 0 10 0 0 [] 0 = 0 ∧
    (0 : Int) ≤ 5 ∧ (5 : Int) ≠ 0 :=
  c6_empty_list_behavior [] 10 0 0 [] 0 5 5 (by decide)

/-- C7: when the platform rejects the programmatic play request,
attemptPlay catches and logs the rejection, issues exactly one play call
(no automatic retry), and leaves the card pre-playing: the playing flag
stays clear and the element's paused state is unchanged; a later user
gesture (toggleVoiceover) can still start playback. -/
theorem c7_play_rejection_caught (c : Card) (ae : AudioEl)
    (ha : c.audio = some ae) (hp : c.playing = false) :
    (attemptPlay false c).playCalls = 1 ∧
    (attemptPlay false c).rejectionsLogged = 1 ∧
    (attemptPlay false c).card.playing = false ∧
    (attemptPlay false c).card.audio = some { ae with currentTime := 0 } ∧
    (toggleVoiceover true (attemptPlay false c).card).card.playing = true := by
  simp [attemptPlay, toggleVoiceover, ha, hp]

/-- C7 witness. -/
theorem c7_play_rejection_caught_witness :
    (attemptPlay false idleCard).playCalls = 1 ∧
    (attemptPlay false idleCard).rejectionsLogged = 1 ∧
    (attemptPlay false idleCard).card.playing = false ∧
    (attemptPlay false idleCard).card.audio =
      some { paused := true, currentTime := 0, duration := 30,
             volume := 1, readyState := 4 } ∧
    (toggleVoiceover true (attemptPlay false idleCard).card).card.playing = true :=
  c7_play_rejection_caught idleCard
    { paused := true, currentTime := 0, duration := 30, volume := 1, readyState := 4 }
    rfl rfl

/-- C8: a card with an empty videoUrls list renders the gradient
placeholder and no video element; a card with no voiceover renders no
audio element, never installs the sync or loop-resync handlers, and its
play/pause voiceover effect is a no-op, while any present video is still
rendered with loop and muted; a card with neither renders the bare
gradient (the render function is total, so it never throws). -/
theorem c8_missing_media_fallback (voiceoverUrl : Option String)
    (videoUrls : List String) (va aa vis p : Bool) (c : Card)
    (hvo : c.hasVoiceover = false) :
    (renderCard [] voiceoverUrl).gradientPlaceholder = true ∧
    (renderCard [] voiceoverUrl).videoEl = false ∧
    (renderCard videoUrls none).audioEl = false ∧
    syncEffectInstalled va aa videoUrls none vis = false ∧
    (playPauseEffect p c).card = c ∧
    (playPauseEffect p c).playCalls = 0 ∧
    (videoUrls ≠ [] → (renderCard videoUrls none).videoLoop = true ∧
      (renderCard videoUrls none).videoMuted = true ∧
      (renderCard videoUrls none).videoAutoPlay = true) ∧
    renderCard [] none = { videoEl := false, gradientPlaceholder := true,
                           audioEl := false, videoMuted := false,
                           videoAutoPlay := false, videoLoop := false } := by
  refine ⟨rfl, rfl, rfl, ?_, ?_, ?_, ?_, rfl⟩
  · simp [syncEffectInstalled, jsTruthyStr]
  · rcases hau : c.audio with _ | ae
    · simp [playPauseEffect, hau]
    · simp [playPauseEffect, hau, hvo]
  · rcases hau : c.audio with _ | ae
    · simp [playPauseEffect, hau]
    · simp [playPauseEffect, hau, hvo]
  · intro h
    refine ⟨?_, ?_, ?_⟩ <;> simp [renderCard, h]

/-- C8 witness. -/
theorem c8_missing_media_fallback_witness :
    (renderCard [] (some "a.mp3")).gradientPlaceholder = true ∧
    (renderCard [] (some "a.mp3")).videoEl = false ∧
    (renderCard ["u.mp4"] none).audioEl = false ∧
    syncEffectInstalled true true ["u.mp4"] none true = false ∧
    (playPauseEffect true bareCard).card = bareCard ∧
    (playPauseEffect true bareCard).playCalls = 0 ∧
    ((["u.mp4"] : List String) ≠ [] → (renderCard ["u.mp4"] none).videoLoop = true ∧
      (renderCard ["u.mp4"] none).videoMuted = true ∧
      (renderCard ["u.mp4"] none).videoAutoPlay = true) ∧
    renderCard [] none = { videoEl := false, gradientPlaceholder := true,
                           audioEl := false, videoMuted := false,
                           videoAutoPlay := false, videoLoop := false } :=
  c8_missing_media_fallback (some "a.mp3") ["u.mp4"] true true true true bareCard rfl

/-- C9: with an unauthenticated session, a favorite-button click only
raises the login prompt: the favorites store, the card's isFavorited
flag and the favorite-change notification are all untouched. -/
theorem c9_unauthenticated_no_mutation (hasIngredients isFavorited prompt : Bool)
    (store : FavoritesStore) (key : String) :
    favoriteClick false hasIngredients isFavorited prompt store key =
      { isFavorited := isFavorited, showLoginPrompt := true,
        store := store, notified := false } := by
  simp [favoriteClick]

/-- C10: RecipeScroller passes neither isVisible nor recipeIndex, so
every card it mounts keeps the defaults false and 0 for its whole
lifetime; a card whose isVisible is false never broadcasts an activation
announcement, none of its audio effects ever issues a play call (its
playing flag stays clear), while the video loading effect still
autoplays the muted video, independent of visibility. -/
theorem c10_scroller_never_activates (n : Nat) (props : CardVisibilityProps)
    (hmem : props ∈ recipeScrollerCardProps n) (p : Bool) (c : Card)
    (hvis : c.isVisible = false) (hplay : c.playing = false)
    (ve : VideoEl) (url : String) (rest : List String)
    (hv : c.video = some ve) (hsrc : ve.src ≠ url) :
    props.isVisible = false ∧ props.recipeIndex = 0 ∧
    broadcastEffect c = none ∧
    (playPauseEffect p c).playCalls = 0 ∧
    (playPauseEffect p c).card.playing = false ∧
    (audioCanPlayHandler p c).playCalls = 0 ∧
    (videoLoadingEffect p (url :: rest) c).video =
      some { ve with src := url, currentTime := 0, paused := !p } ∧
    (renderCard (url :: rest) none).videoMuted = true := by
  have hpk : props.isVisible = false ∧ props.recipeIndex = 0 := by
    simp only [recipeScrollerCardProps, List.mem_map] at hmem
    obtain ⟨k, _, hpk⟩ := hmem
    rw [← hpk]
    exact ⟨rfl, rfl⟩
  refine ⟨hpk.1, hpk.2, ?_, ?_, ?_, ?_, ?_, rfl⟩
  · simp [broadcastEffect, hvis]
  · exact playPauseEffect_hidden_playCalls hvis
  · exact playPauseEffect_hidden hvis (goodCard_of_not_playing hplay)
  · rcases hau : c.audio with _ | ae
    · simp [audioCanPlayHandler, hau]
    · simp [audioCanPlayHandler, hau, hvis]
  · simp [videoLoadingEffect, hv, hsrc]

/-- C10 witness. -/
theorem c10_scroller_never_activates_witness :
    ({ isVisible := false, recipeIndex := 0 } : CardVisibilityProps).isVisible = false ∧
    ({ isVisible := false, recipeIndex := 0 } : CardVisibilityProps).recipeIndex = 0 ∧
    broadcastEffect scrollerCard = none ∧
    (playPauseEffect true scrollerCard).playCalls = 0 ∧
    (playPauseEffect true scrollerCard).card.playing = false ∧
    (audioCanPlayHandler true scrollerCard).playCalls = 0 ∧
    (videoLoadingEffect true ["v.mp4"] scrollerCard).video =
      some { paused := false, currentTime := 0, duration := 8, src := "v.mp4" } ∧
    (renderCard ["v.mp4"] none).videoMuted = true :=
  c10_scroller_never_activates 2 { isVisible := false, recipeIndex := 0 }
    (by decide) true scrollerCard rfl rfl
    { paused := true, currentTime := 0, duration := 8, src := "" }
    "v.mp4" [] rfl (by decide)

end Foogle
